import Mathlib

/-!
Verification development for the BcBData library (src/BcBData.py), a small
data-access and transform library for central-bank time series.

Modelling conventions (shallow embedding):
* Numeric values are rationals; a pandas Series is a position-indexed
  `List (Option ℚ)` whose `none` entries are the missing markers (NaN).
* A DataFrame is a list of named columns `List (String × List (Option ℚ))`.
* Dates are year/month/day triples.
* Operations that can raise a Python exception return `Option`/`Except`.
* External collaborators (HTTP transport, CSV tokenizing, pandas parsing
  primitives) are modelled by computable functions on the formats this
  library actually feeds them; each such model carries a doc comment.
-/

/-! ### Dates and the date-range filter of get_series (src/BcBData.py line 36) -/

/-- A calendar date with day granularity. -/
structure Date where
  year : Nat
  month : Nat
  day : Nat
deriving DecidableEq, Repr

/-- Lexicographic year/month/day comparison used by the date index. -/
def dateLe (a b : Date) : Bool :=
  decide (a.year < b.year ∨ (a.year = b.year ∧
    (a.month < b.month ∨ (a.month = b.month ∧ a.day ≤ b.day))))

/-- Model of `df.set_index(date_column).loc[slice(start, end)]` in
`get_series` (src/BcBData.py line 36): pandas label slicing on a sorted
date index keeps exactly the rows whose date lies in the inclusive range,
where a `none` bound leaves that side unbounded. -/
def get_series_locrange (start end_ : Option Date) (rows : List (Date × ℚ)) :
    List (Date × ℚ) :=
  rows.filter (fun r =>
    (match start with
     | none => true
     | some s => dateLe s r.1) &&
    (match end_ with
     | none => true
     | some e => dateLe r.1 e))

/-! ### get_multiple_series list reconciliation (src/BcBData.py lines 54-70) -/

/-- The value bound to `name_list` after the reconciliation block of
`get_multiple_series` (src/BcBData.py lines 54-61): with `n1 = len(code_list)`
and `n2 = len(name_list)`, if `n1 < n2` the name list is sliced down to the
first `n1` entries, and if `n1 > n2` the default names
`unnamed_1 … unnamed_{n1-n2}` are appended. -/
def reconcile_names (code_list : List Nat) (name_list : List String) :
    List String :=
  if code_list.length < name_list.length then
    name_list.take code_list.length
  else if code_list.length > name_list.length then
    name_list ++
      (List.range' 1 (code_list.length - name_list.length)).map
        (fun i => "unnamed_" ++ toString i)
  else
    name_list

/-- The (code, name) pairs the loop of `get_multiple_series`
(src/BcBData.py line 65) iterates over: `zip(code_list, name_list)` after
reconciliation. Each pair leads to one `get_series(code, name, ...)` call. -/
def fetched_pairs (code_list : List Nat) (name_list : List String) :
    List (Nat × String) :=
  code_list.zip (reconcile_names code_list name_list)

/-- The series codes actually requested by `get_multiple_series`. -/
def fetched_codes (code_list : List Nat) (name_list : List String) : List Nat :=
  (fetched_pairs code_list name_list).map Prod.fst

/-- The column names actually used by `get_multiple_series`. -/
def fetched_names (code_list : List Nat) (name_list : List String) :
    List String :=
  (fetched_pairs code_list name_list).map Prod.snd

/-- The caller-visible contents of the `name_list` argument object after
`get_multiple_series` returns. The `n1 < n2` branch (src/BcBData.py line 58)
rebinds the local variable to a fresh slice, leaving the caller untouched,
but the `n1 > n2` branch (line 61) calls `name_list.extend(...)`, which
mutates the list object the caller passed in. -/
def name_list_after (code_list : List Nat) (name_list : List String) :
    List String :=
  if code_list.length > name_list.length then
    name_list ++
      (List.range' 1 (code_list.length - name_list.length)).map
        (fun i => "unnamed_" ++ toString i)
  else
    name_list

/-! ### create_query_url (src/BcBData.py lines 73-111) -/

/-- Python `str.replace(pat, rep)` on code-point sequences: every
non-overlapping occurrence of `pat`, scanned left to right, is replaced by
`rep` (with a nonempty `pat`, as in all call sites of the source). The
recursion is made structural by a fuel counter that every call keeps at or
above the length of the remaining text, so the zero-fuel case is reached
only on empty text. -/
def pyReplaceAux (pat rep : List Char) : Nat → List Char → List Char
  | 0, s => s
  | _ + 1, [] => []
  | n + 1, c :: rest =>
    if pat ≠ [] ∧ pat.isPrefixOf (c :: rest) then
      rep ++ pyReplaceAux pat rep n ((c :: rest).drop pat.length)
    else
      c :: pyReplaceAux pat rep n rest

/-- Python `str.replace` lifted to `String`. -/
def pyReplace (pat rep s : String) : String :=
  String.mk (pyReplaceAux pat.data rep.data s.data.length s.data)

/-- The single-quote character, U+0027. -/
def qmark : String := (Char.ofNat 39).toString

/-- The frequency-to-base-URL dictionary of `create_query_url`
(src/BcBData.py lines 75-81), as a lookup function. -/
def urls_dict (f : String) : Option String :=
  if f = "annual" then
    some "https://olinda.bcb.gov.br/olinda/servico/Expectativas/versao/v1/odata/ExpectativasMercadoAnuais"
  else if f = "quarterly" then
    some "https://olinda.bcb.gov.br/olinda/servico/Expectativas/versao/v1/odata/ExpectativasMercadoTrimestrais"
  else if f = "monthly" then
    some "https://olinda.bcb.gov.br/olinda/servico/Expectativas/versao/v1/odata/ExpectativaMercadoMensais"
  else if f = "inflation-12-months" then
    some "https://olinda.bcb.gov.br/olinda/servico/Expectativas/versao/v1/odata/ExpectativasMercadoInflacao12Meses"
  else if f = "top5s-monthly" then
    some "https://olinda.bcb.gov.br/olinda/servico/Expectativas/versao/v1/odata/ExpectativasMercadoTop5Mensais"
  else if f = "top5s-annual" then
    some "https://olinda.bcb.gov.br/olinda/servico/Expectativas/versao/v1/odata/ExpectativasMercadoTop5Anuais"
  else if f = "institutions" then
    some "https://olinda.bcb.gov.br/olinda/servico/Expectativas/versao/v1/odata/ExpectativasMercadoInstituicoes"
  else
    none

/-- The seven valid frequency categories (the keys of `urls_dict`). -/
def valid_frequencies : List String :=
  ["annual", "quarterly", "monthly", "inflation-12-months",
   "top5s-monthly", "top5s-annual", "institutions"]

/-- The indicator filter clause of src/BcBData.py line 91:
`"Indicador eq <q><i><q>"` for each indicator, joined with `" or "`. -/
def indic_filter (indicators : List String) : String :=
  " or ".intercalate
    (indicators.map (fun i => "Indicador eq " ++ qmark ++ i ++ qmark))

/-- Python truthiness of an optional list (`if Indicators:`):
true iff present and nonempty. -/
def truthyList (x : Option (List String)) : Bool :=
  match x with
  | none => false
  | some l => !l.isEmpty

/-- Python truthiness of an optional string (`if start:`):
true iff present and nonempty. -/
def truthyStr (x : Option String) : Bool :=
  match x with
  | none => false
  | some s => !s.isEmpty

/-- The fixed `$select` column projection (src/BcBData.py line 104). -/
def select_clause : String :=
  "Indicador,Data,DataReferencia,Media,Mediana,DesvioPadrao,Minimo,Maximo,numeroRespondentes,baseCalculo"

/-- The final character re-escaping of src/BcBData.py line 109: the three
substrings are rewritten, in source order, anywhere in the URL. -/
def encode_url (url : String) : String :=
  pyReplace "í" "%C3%AD" (pyReplace "çã" "%C3%A7%C3%A3o" (pyReplace "â" "%C3%A2" url))

/-- `create_query_url` (src/BcBData.py lines 73-111). An unknown frequency
raises (`Except.error`) before any filter handling; otherwise the filter
clauses present are collected in order (indicators, start, end), joined by
`" and "`, space-percent-encoded, embedded in the fixed query skeleton, and
the whole URL is re-escaped by `encode_url`. -/
def create_query_url (frequency : String) (indicators : Option (List String))
    (start end_ : Option String) : Except String String :=
  match urls_dict frequency with
  | none => Except.error ("Frequency doesn" ++ qmark ++ "t exist")
  | some url_base =>
    let filters : List String :=
      (if truthyList indicators then [indic_filter (indicators.getD [])] else []) ++
      (if truthyStr start then ["Data ge " ++ qmark ++ start.getD "" ++ qmark] else []) ++
      (if truthyStr end_ then ["Data le " ++ qmark ++ end_.getD "" ++ qmark] else [])
    let filters_string := pyReplace " " "%20" (" and ".intercalate filters)
    let query := "?$top=100000000&" ++ "$filter=" ++ filters_string ++ "&" ++
      "$format=text/csv&" ++ "$select=" ++ select_clause
    Except.ok (encode_url (url_base ++ query))

/-- The URL shape asserted by the specification: base URL for the frequency,
then `?$top=100000000&$filter=`, then the present filter clauses joined by
`" and "` with every space replaced by `%20`, then
`&$format=text/csv&$select=` and the fixed projection, the whole string then
re-escaped for the three accented substrings. Written from the words of the
spec, to be compared with `create_query_url`. -/
def query_url_spec (frequency : String) (indicators : Option (List String))
    (start end_ : Option String) : Option String :=
  (urls_dict frequency).map (fun base =>
    let clauses : List String :=
      (if truthyList indicators then [indic_filter (indicators.getD [])] else []) ++
      (if truthyStr start then ["Data ge " ++ qmark ++ start.getD "" ++ qmark] else []) ++
      (if truthyStr end_ then ["Data le " ++ qmark ++ end_.getD "" ++ qmark] else [])
    encode_url
      (base ++ "?$top=100000000&$filter=" ++
        pyReplace " " "%20" (" and ".intercalate clauses) ++
        "&$format=text/csv&$select=" ++ select_clause))

/-! ### get_market_expectations reference-date normalization
(src/BcBData.py lines 125-135) -/

/-- Numeric value of a decimal digit character. -/
def digitVal (c : Char) : Nat := c.toNat - 48

/-- The number denoted by a list of decimal digit characters. -/
def natOfDigits (l : List Char) : Nat :=
  l.foldl (fun acc c => 10 * acc + digitVal c) 0

/-- One cell of the DataReferencia column after `get_market_expectations`:
either a normalized date or the raw string passed through untouched. -/
inductive RefCell where
  | date : Date → RefCell
  | raw : String → RefCell
deriving DecidableEq, Repr

/-- The regex substitution of src/BcBData.py line 132:
`re.sub` semantics for pattern `(Q\d) (\d+)` with replacement `\2-\1`:
scan left to right, and at each occurrence of a `Q`, a digit, a space and a
maximal nonempty digit run, emit the digit run, a dash, and the `Q<digit>`
group, continuing after the matched text. -/
def subQuarterAux : Nat → List Char → List Char
  | 0, s => s
  | _ + 1, [] => []
  | n + 1, 'Q' :: d :: ' ' :: tl =>
    if d.isDigit && !(tl.takeWhile Char.isDigit).isEmpty then
      tl.takeWhile Char.isDigit ++
        ('-' :: 'Q' :: d :: subQuarterAux n (tl.dropWhile Char.isDigit))
    else
      'Q' :: subQuarterAux n (d :: ' ' :: tl)
  | n + 1, c :: rest => c :: subQuarterAux n rest

/-- The regex substitution with its fuel set to the text length (every
recursive call of `subQuarterAux` strictly shortens the text, so this fuel
never runs out before the text does). -/
def subQuarter (s : List Char) : List Char :=
  subQuarterAux s.length s

/-- Modelled collaborator (pandas): `pd.PeriodIndex(qs, freq=Q).to_timestamp()`
on one cell. A string of the form `<year digits>-Q<n>` with `1 ≤ n ≤ 4` is a
quarterly period whose timestamp is the first day of the first month of the
quarter; anything else raises (`none`). -/
def parsePeriodQ (s : String) : Option Date :=
  let cs := s.data
  let ys := cs.takeWhile Char.isDigit
  match cs.dropWhile Char.isDigit with
  | ['-', 'Q', q] =>
    if !ys.isEmpty && q.isDigit && decide (1 ≤ digitVal q) && decide (digitVal q ≤ 4) then
      some ⟨natOfDigits ys, 3 * (digitVal q - 1) + 1, 1⟩
    else
      none
  | _ => none

/-- The quarterly branch of `get_market_expectations`
(src/BcBData.py lines 131-133) on one cell: prefix `Q`, replace `/` by a
space, apply the regex substitution, then parse as a quarterly period and
take its start timestamp. -/
def quarterly_ref (raw : String) : Option Date :=
  parsePeriodQ (String.mk (subQuarter
    (('Q' :: raw.data).map (fun c => if c = '/' then ' ' else c))))

/-- Modelled collaborator (pandas): `pd.to_datetime(x, format=%m/%Y)` on one
cell: a digit run denoting a month 1-12, a slash, and a digit run for the
year, giving the first day of that month; anything else raises (`none`). -/
def parse_mY (s : String) : Option Date :=
  let ms := s.data.takeWhile Char.isDigit
  match s.data.dropWhile Char.isDigit with
  | '/' :: rest =>
    if !ms.isEmpty && rest.all Char.isDigit && !rest.isEmpty &&
        decide (1 ≤ natOfDigits ms) && decide (natOfDigits ms ≤ 12) then
      some ⟨natOfDigits rest, natOfDigits ms, 1⟩
    else
      none
  | _ => none

/-- Modelled collaborator (pandas): `pd.to_datetime(x, format=%Y)` on one
cell: a digit run for the year, giving January 1st of that year; anything
else raises (`none`). -/
def parse_Y (s : String) : Option Date :=
  if !s.data.isEmpty && s.data.all Char.isDigit then
    some ⟨natOfDigits s.data, 1, 1⟩
  else
    none

/-- The DataReferencia normalization dispatch of `get_market_expectations`
(src/BcBData.py lines 125-135) on one cell: monthly parses with `%m/%Y`,
annual with `%Y`, quarterly through the period reconstruction, and every
other frequency leaves the cell as the raw string. `none` means the pandas
parse raised. -/
def normalize_reference (frequency raw : String) : Option RefCell :=
  if frequency = "monthly" then
    (parse_mY raw).map RefCell.date
  else if frequency = "annual" then
    (parse_Y raw).map RefCell.date
  else if frequency = "quarterly" then
    (quarterly_ref raw).map RefCell.date
  else
    some (RefCell.raw raw)

/-! ### Series transforms (src/BcBData.py lines 138-179) -/

/-- Running cumulative product with accumulator, as in pandas `cumprod`. -/
def cumprod (acc : ℚ) : List ℚ → List ℚ
  | [] => []
  | x :: xs => (acc * x) :: cumprod (acc * x) xs

/-- The inner `_mom2index` of src/BcBData.py lines 145-149: drop the missing
values, add 1 to each, take the running cumulative product, and divide the
whole sequence by its first element. On a series with no non-missing value,
`index.iloc[0]` raises (`none`). -/
def mom2index_series (s : List (Option ℚ)) : Option (List ℚ) :=
  match cumprod 1 ((s.filterMap id).map (· + 1)) with
  | [] => none
  | c :: rest => some ((c :: rest).map (· / c))

/-- `mom2index` on a DataFrame (src/BcBData.py lines 154-158): an
accumulating loop over the columns, each transformed by `_mom2index` and
concatenated onto the result; the first column that raises aborts the
whole call. -/
def mom2index_df (data : List (String × List (Option ℚ))) :
    Option (List (String × List ℚ)) :=
  data.foldl
    (fun acc c =>
      match acc, mom2index_series c.2 with
      | some cols, some col => some (cols ++ [(c.1, col)])
      | _, _ => none)
    (some [])

/-- pandas `Series.shift(n)`: values move down `n` slots, the first `n`
slots become missing, and the length is preserved. -/
def shiftSeries (n : Nat) (s : List (Option ℚ)) : List (Option ℚ) :=
  (List.replicate n none ++ s).take s.length

/-- `index2yoy` (src/BcBData.py lines 163-170) on a series:
`series / series.shift(12) - 1` elementwise, a missing operand making the
result missing. -/
def index2yoy (s : List (Option ℚ)) : List (Option ℚ) :=
  List.zipWith
    (fun a b =>
      match a, b with
      | some x, some y => some (x / y - 1)
      | _, _ => none)
    s (shiftSeries 12 s)

/-- `index2yoy` on a DataFrame: pandas evaluates
`df / df.shift(12) - 1` column by column. -/
def index2yoy_df (cols : List (String × List (Option ℚ))) :
    List (String × List (Option ℚ)) :=
  cols.map (fun c => (c.1, index2yoy c.2))

/-- `mom2yoy` (src/BcBData.py lines 173-179) on a series: literally
`index2yoy(mom2index(series))`, the index series (which has no missing
entries) fed to `index2yoy` as a plain series. -/
def mom2yoy_series (s : List (Option ℚ)) : Option (List (Option ℚ)) :=
  (mom2index_series s).map (fun idx => index2yoy (idx.map some))

/-- `mom2yoy` on a DataFrame: `index2yoy(mom2index(df))`. -/
def mom2yoy_df (data : List (String × List (Option ℚ))) :
    Option (List (String × List (Option ℚ))) :=
  (mom2index_df data).map
    (fun cols => index2yoy_df (cols.map (fun c => (c.1, c.2.map some))))

/-! ### Helper lemmas -/

/-- The reconciled name list is never shorter than the code list. -/
theorem reconcile_names_length_ge (code_list : List Nat) (name_list : List String) :
    code_list.length ≤ (reconcile_names code_list name_list).length := by
  unfold reconcile_names
  split_ifs with h1 h2
  · simp_all
    omega
  · simp_all
  · simp_all

/-- A cumulative product starting from a positive accumulator over positive
factors stays positive. -/
theorem cumprod_pos {acc : ℚ} {l : List ℚ} (ha : 0 < acc)
    (hl : ∀ x ∈ l, 0 < x) : ∀ y ∈ cumprod acc l, 0 < y := by
  induction l generalizing acc with
  | nil => simp [cumprod]
  | cons x xs ih =>
    intro y hy
    rw [cumprod] at hy
    rcases List.mem_cons.mp hy with h | h
    · subst h
      exact mul_pos ha (hl x (by simp))
    · exact ih (mul_pos ha (hl x (by simp)))
        (fun z hz => hl z (by simp [hz])) y h

/-- The shifted series is missing at the first twelve positions. -/
theorem shiftSeries_getElem_lt {s : List (Option ℚ)} {t : Nat}
    (h1 : t < 12) (h2 : t < s.length) : (shiftSeries 12 s)[t]? = some none := by
  unfold shiftSeries
  rw [List.getElem?_take_of_lt h2,
    List.getElem?_append_left (by simpa using h1),
    List.getElem?_replicate, if_pos h1]

/-- Past the first twelve positions the shifted series holds the value
twelve slots earlier. -/
theorem shiftSeries_getElem_ge {s : List (Option ℚ)} {t : Nat}
    (h1 : 12 ≤ t) (h2 : t < s.length) :
    (shiftSeries 12 s)[t]? = s[t - 12]? := by
  unfold shiftSeries
  rw [List.getElem?_take_of_lt h2,
    List.getElem?_append_right (by simpa using h1)]
  simp

/-- Regrouping of the query-string concatenation: the piecewise literals of
the source assemble into the contiguous literals of the specification. -/
theorem query_concat_eq (base fs : String) :
    base ++ ("?$top=100000000&" ++ "$filter=" ++ fs ++ "&" ++
      "$format=text/csv&" ++ "$select=" ++ select_clause) =
    base ++ "?$top=100000000&$filter=" ++ fs ++
      "&$format=text/csv&$select=" ++ select_clause := by
  simp only [← String.append_assoc]
  rw [String.append_assoc base "?$top=100000000&" "$filter=",
    show ("?$top=100000000&" : String) ++ "$filter=" =
      "?$top=100000000&$filter=" from rfl,
    String.append_assoc _ "&" "$format=text/csv&",
    show ("&" : String) ++ "$format=text/csv&" = "&$format=text/csv&" from rfl,
    String.append_assoc _ "&$format=text/csv&" "$select=",
    show ("&$format=text/csv&" : String) ++ "$select=" =
      "&$format=text/csv&$select=" from rfl]

/-- A run of digit characters is taken whole by `takeWhile isDigit`, and a
dash stops the run. -/
theorem takeWhile_digits_append (ys r : List Char)
    (h : ∀ c ∈ ys, c.isDigit = true) :
    (ys ++ '-' :: r).takeWhile Char.isDigit = ys ∧
    (ys ++ '-' :: r).dropWhile Char.isDigit = '-' :: r := by
  induction ys with
  | nil => constructor <;> simp [List.takeWhile_cons, List.dropWhile_cons]
  | cons c cs ih =>
    have hc : c.isDigit = true := h c (by simp)
    have ih' := ih (fun d hd => h d (by simp [hd]))
    constructor
    · simpa [List.takeWhile_cons, hc] using ih'.1
    · simpa [List.dropWhile_cons, hc] using ih'.2

/-- A list of digit characters is its own maximal digit run. -/
theorem takeWhile_digits_all (ys : List Char)
    (h : ∀ c ∈ ys, c.isDigit = true) :
    ys.takeWhile Char.isDigit = ys ∧ ys.dropWhile Char.isDigit = [] := by
  induction ys with
  | nil => simp
  | cons c cs ih =>
    have hc : c.isDigit = true := h c (by simp)
    have ih' := ih (fun d hd => h d (by simp [hd]))
    constructor
    · simp [List.takeWhile_cons, hc, ih'.1]
    · simp [List.dropWhile_cons, hc, ih'.2]

/-- `subQuarterAux` on empty text is empty for any fuel. -/
theorem subQuarterAux_nil (n : Nat) : subQuarterAux n [] = [] := by
  cases n <;> rfl

/-- Membership in the keys of `urls_dict` is membership in the seven valid
frequency categories. -/
theorem urls_dict_isSome_iff (f : String) :
    (urls_dict f).isSome = true ↔ f ∈ valid_frequencies := by
  unfold urls_dict valid_frequencies
  split_ifs with h1 h2 h3 h4 h5 h6 h7 <;> simp_all

/-! ### Claims -/

/-- C1 (counterexample): with `codes = [1,2,3]` and `names = ["a","b"]`,
`get_multiple_series` does not restrict itself to codes `[1,2]` — code 3 is
among the codes requested, so the claimed silent truncation of codes does
not happen. -/
theorem multi_series_code_truncation_cex :
    fetched_codes [1,2,3] ["a","b"] ≠ [1,2] ∧
      3 ∈ fetched_codes [1,2,3] ["a","b"] := by
  decide

/-- C1 (amended): `get_multiple_series` never truncates the code list: for
every relative length of the two lists, the codes actually fetched are
exactly the full code list, in order; a name-list deficit is made up by
synthesized `unnamed_<i>` names instead. -/
theorem multi_series_fetches_all_codes (code_list : List Nat)
    (name_list : List String) :
    fetched_codes code_list name_list = code_list := by
  unfold fetched_codes fetched_pairs
  exact List.map_fst_zip _ _ (reconcile_names_length_ge code_list name_list)

/-- C2: with `codes = [1,2]` and `names = ["a"]`, both codes are fetched
under the names `["a","unnamed_1"]`; in general, when codes outnumber
names, the name list is padded with `unnamed_1, unnamed_2, …` up to the
code-list length and every code is fetched. -/
theorem multi_series_pads_names :
    fetched_pairs [1,2] ["a"] = [(1, "a"), (2, "unnamed_1")] ∧
      ∀ (code_list : List Nat) (name_list : List String),
        name_list.length < code_list.length →
          fetched_pairs code_list name_list =
            code_list.zip (name_list ++
              (List.range' 1 (code_list.length - name_list.length)).map
                (fun i => "unnamed_" ++ toString i)) := by
  refine ⟨by decide, fun code_list name_list h => ?_⟩
  unfold fetched_pairs reconcile_names
  rw [if_neg (by omega), if_pos (by omega)]

/-- C2 witness: the general padding law instantiated at
`codes = [1,2]`, `names = ["a"]`. -/
theorem multi_series_pads_names_witness :
    fetched_pairs [1,2] ["a"] =
      [1,2].zip (["a"] ++ (List.range' 1 (2 - 1)).map
        (fun i => "unnamed_" ++ toString i)) :=
  multi_series_pads_names.2 [1,2] ["a"] (by decide)

/-- C3 (counterexample): `get_multiple_series` with `codes = [1,2]` and
`names = ["a"]` leaves the caller holding `["a","unnamed_1"]` in the list
object it passed as `name_list` — the argument is mutated in place by
`name_list.extend(...)`, so it is not element-for-element unchanged. -/
theorem multi_series_name_list_mutation_cex :
    name_list_after [1,2] ["a"] ≠ ["a"] := by
  decide

/-- C3 (amended): the `name_list` argument of `get_multiple_series` is
unchanged after the call whenever the code list is at most as long as the
name list; but when codes outnumber names, the call appends the synthesized
`unnamed_<i>` defaults to the very list object the caller passed in. -/
theorem multi_series_name_list_after_call (code_list : List Nat)
    (name_list : List String) :
    (code_list.length ≤ name_list.length →
      name_list_after code_list name_list = name_list) ∧
    (name_list.length < code_list.length →
      name_list_after code_list name_list =
        name_list ++
          (List.range' 1 (code_list.length - name_list.length)).map
            (fun i => "unnamed_" ++ toString i)) := by
  constructor
  · intro h
    unfold name_list_after
    rw [if_neg (by omega)]
  · intro h
    unfold name_list_after
    rw [if_pos (by omega)]

/-- C3 witness: the mutation branch instantiated at `codes = [1,2]`,
`names = ["a"]`, and the no-mutation branch at `codes = [1]`,
`names = ["a","b"]`. -/
theorem multi_series_name_list_after_call_witness :
    name_list_after [1,2] ["a"] =
      ["a"] ++ (List.range' 1 (2 - 1)).map (fun i => "unnamed_" ++ toString i) ∧
    name_list_after [1] ["a", "b"] = ["a", "b"] :=
  ⟨(multi_series_name_list_after_call [1,2] ["a"]).2 (by decide),
   (multi_series_name_list_after_call [1] ["a", "b"]).1 (by decide)⟩

/-- C4: for each of the seven valid frequency categories,
`create_query_url` returns a URL and never raises; for any other frequency
string it raises the configuration error, independently of the filter
arguments (so before any filter processing or network access). -/
theorem create_query_url_frequency_validation (f : String)
    (indicators : Option (List String)) (start end_ : Option String) :
    (f ∈ valid_frequencies →
      ∃ u, create_query_url f indicators start end_ = Except.ok u) ∧
    (f ∉ valid_frequencies →
      create_query_url f indicators start end_ =
        Except.error ("Frequency doesn" ++ qmark ++ "t exist")) := by
  constructor
  · intro hf
    have hs : (urls_dict f).isSome = true := (urls_dict_isSome_iff f).mpr hf
    obtain ⟨base, hb⟩ := Option.isSome_iff_exists.mp hs
    exact ⟨_, by rw [create_query_url, hb]⟩
  · intro hf
    have hn : urls_dict f = none := by
      cases hu : urls_dict f with
      | none => rfl
      | some v =>
        exact absurd ((urls_dict_isSome_iff f).mp (by simp [hu])) hf
    rw [create_query_url, hn]

/-- C4 witness: `annual` is accepted, `weekly` is rejected. -/
theorem create_query_url_frequency_validation_witness :
    (∃ u, create_query_url "annual" none none none = Except.ok u) ∧
    create_query_url "weekly" none none none =
      Except.error ("Frequency doesn" ++ qmark ++ "t exist") :=
  ⟨(create_query_url_frequency_validation "annual" none none none).1 (by decide),
   (create_query_url_frequency_validation "weekly" none none none).2 (by decide)⟩

/-- C10: the date-range filter of `get_series` is inclusive on both ends
and a `none` bound is unbounded on that side: with `start = none` it keeps
exactly the observations with date at most `end`; with both bounds `none`
it keeps everything; with `end = none` exactly the observations from
`start` on; membership in the doubly-bounded case is the conjunction of the
two inclusive comparisons, and the comparison itself accepts the boundary
date. -/
theorem get_series_date_filter :
    (∀ e rows, get_series_locrange none (some e) rows =
      rows.filter (fun r => dateLe r.1 e)) ∧
    (∀ rows, get_series_locrange none none rows = rows) ∧
    (∀ s rows, get_series_locrange (some s) none rows =
      rows.filter (fun r => dateLe s r.1)) ∧
    (∀ s e rows r, r ∈ get_series_locrange (some s) (some e) rows ↔
      r ∈ rows ∧ dateLe s r.1 = true ∧ dateLe r.1 e = true) ∧
    (∀ d, dateLe d d = true) := by
  refine ⟨fun e rows => ?_, fun rows => ?_, fun s rows => ?_,
    fun s e rows r => ?_, fun d => ?_⟩
  · simp [get_series_locrange]
  · simp [get_series_locrange]
  · simp [get_series_locrange]
  · simp [get_series_locrange, List.mem_filter, and_assoc]
  · simp [dateLe]

/-- C5: for every valid frequency, `create_query_url` returns exactly the
URL described by the specification formula `query_url_spec`: the base URL,
`?$top=100000000&$filter=`, the present filter clauses joined by `and` with
every space percent-encoded, `&$format=text/csv&$select=` with the fixed
projection, and the three accented substrings re-escaped over the whole
URL. -/
theorem create_query_url_matches_spec (f : String)
    (indicators : Option (List String)) (start end_ : Option String)
    (u : String) (h : query_url_spec f indicators start end_ = some u) :
    create_query_url f indicators start end_ = Except.ok u := by
  cases hb : urls_dict f with
  | none =>
    rw [query_url_spec, hb] at h
    cases h
  | some base =>
    simp only [query_url_spec, hb, Option.map_some', Option.some.injEq] at h
    simp only [create_query_url, hb]
    rw [← h, query_concat_eq]

set_option maxRecDepth 8192 in
/-- C5 witness: the `annual` frequency with no filters produces the
specified URL with an empty filter section. -/
theorem create_query_url_matches_spec_witness :
    create_query_url "annual" none none none =
      Except.ok
        ("https://olinda.bcb.gov.br/olinda/servico/Expectativas/versao/v1/odata/ExpectativasMercadoAnuais?$top=100000000&$filter=&$format=text/csv&$select=" ++
          select_clause) :=
  create_query_url_matches_spec "annual" none none none _ (by rfl)

/-- C6: `get_market_expectations` normalizes DataReferencia per frequency:
a quarterly raw value `<n>/<year>` (digit `n` between 1 and 4, digit-run
year) becomes the start date of quarter `n` of that year (month
`3*(n-1)+1`, day 1) — concretely `2/2021` becomes 2021-04-01; monthly cells
go through the `%m/%Y` parse and annual cells through the `%Y` parse; every
other frequency leaves the cell as the raw string. -/
theorem market_expectations_reference_normalization :
    (∀ freq raw : String, freq ≠ "monthly" → freq ≠ "annual" →
      freq ≠ "quarterly" →
      normalize_reference freq raw = some (RefCell.raw raw)) ∧
    (∀ (raw : String) (d : Char) (ys : List Char),
      raw.data = d :: '/' :: ys →
      d.isDigit = true → 1 ≤ digitVal d → digitVal d ≤ 4 →
      ys ≠ [] → (∀ c ∈ ys, c.isDigit = true) →
      normalize_reference "quarterly" raw =
        some (RefCell.date ⟨natOfDigits ys, 3 * (digitVal d - 1) + 1, 1⟩)) ∧
    normalize_reference "quarterly" "2/2021" =
      some (RefCell.date ⟨2021, 4, 1⟩) ∧
    (∀ raw, normalize_reference "monthly" raw =
      (parse_mY raw).map RefCell.date) ∧
    (∀ raw, normalize_reference "annual" raw =
      (parse_Y raw).map RefCell.date) := by
  refine ⟨?_, ?_, by decide, fun raw => rfl, fun raw => rfl⟩
  · intro freq raw h1 h2 h3
    simp [normalize_reference, h1, h2, h3]
  · intro raw d ys hraw hd h1 h4 hne hall
    have hq : normalize_reference "quarterly" raw =
        (quarterly_ref raw).map RefCell.date := rfl
    rw [hq]
    suffices hsuff : quarterly_ref raw =
        some ⟨natOfDigits ys, 3 * (digitVal d - 1) + 1, 1⟩ by
      rw [hsuff]
      rfl
    have hds : d ≠ '/' := by
      intro e
      subst e
      exact absurd hd (by decide)
    have hysmap : ys.map (fun c => if c = '/' then ' ' else c) = ys := by
      have h5 : ∀ c ∈ ys, (if c = '/' then ' ' else c) = c := by
        intro c hc
        have : c ≠ '/' := by
          intro e
          subst e
          exact absurd (hall _ hc) (by decide)
        exact if_neg this
      calc ys.map (fun c => if c = '/' then ' ' else c)
          = ys.map id := List.map_congr_left h5
        _ = ys := List.map_id ys
    have hmap : ('Q' :: raw.data).map (fun c => if c = '/' then ' ' else c) =
        'Q' :: d :: ' ' :: ys := by
      rw [hraw]
      simp only [List.map_cons]
      rw [if_neg (by decide), if_neg hds]
      simp [hysmap]
    have htws : ys.takeWhile Char.isDigit = ys := (takeWhile_digits_all ys hall).1
    have hdws : ys.dropWhile Char.isDigit = [] := (takeWhile_digits_all ys hall).2
    have hyse : ys.isEmpty = false := by
      cases ys with
      | nil => exact absurd rfl hne
      | cons a l => rfl
    have hsub : subQuarter ('Q' :: d :: ' ' :: ys) = ys ++ ['-', 'Q', d] := by
      show subQuarterAux ('Q' :: d :: ' ' :: ys).length ('Q' :: d :: ' ' :: ys) =
        ys ++ ['-', 'Q', d]
      have hlen : ('Q' :: d :: ' ' :: ys).length = (ys.length + 2) + 1 := by
        simp
      rw [hlen, subQuarterAux, if_pos (by rw [htws, hd, hyse]; rfl),
        htws, hdws, subQuarterAux_nil]
    rw [quarterly_ref, hmap, hsub]
    have htke := takeWhile_digits_append ys ['Q', d] hall
    have hdata : (String.mk (ys ++ ['-', 'Q', d])).data = ys ++ '-' :: ['Q', d] := rfl
    rw [parsePeriodQ]
    simp only [hdata, htke.1, htke.2]
    rw [if_pos]
    rw [hyse, hd, decide_eq_true h1, decide_eq_true h4]
    rfl

/-- C6 witness: the pass-through law applied to the `top5s-monthly`
frequency and the quarterly law applied to the raw value `2/2021`. -/
theorem market_expectations_reference_normalization_witness :
    normalize_reference "top5s-monthly" "2/2021" =
      some (RefCell.raw "2/2021") ∧
    normalize_reference "quarterly" "2/2021" =
      some (RefCell.date
        ⟨natOfDigits ['2', '0', '2', '1'], 3 * (digitVal '2' - 1) + 1, 1⟩) :=
  ⟨market_expectations_reference_normalization.1 "top5s-monthly" "2/2021"
      (by decide) (by decide) (by decide),
   market_expectations_reference_normalization.2.1 "2/2021" '2'
      ['2', '0', '2', '1'] (by decide) (by decide) (by decide) (by decide)
      (by decide) (by decide)⟩

/-- C7: `mom2yoy` is exactly the composition of `mom2index` followed by
`index2yoy`, both for series and column-wise for tables. -/
theorem mom2yoy_is_composition :
    (∀ s : List (Option ℚ), mom2yoy_series s =
      (mom2index_series s).map (fun idx => index2yoy (idx.map some))) ∧
    (∀ data : List (String × List (Option ℚ)), mom2yoy_df data =
      (mom2index_df data).map
        (fun cols => index2yoy_df (cols.map (fun c => (c.1, c.2.map some))))) :=
  ⟨fun _ => rfl, fun _ => rfl⟩

/-- C9: `index2yoy` is missing at every position `t < 12`, and at every
position `t ≥ 12` where both `s[t]` and `s[t-12]` carry values it equals
`s[t] / s[t-12] - 1` exactly. -/
theorem index2yoy_values (s : List (Option ℚ)) (t : Nat) :
    (t < 12 → t < s.length → (index2yoy s)[t]? = some none) ∧
    (12 ≤ t → ∀ x y : ℚ, s[t]? = some (some x) → s[t - 12]? = some (some y) →
      (index2yoy s)[t]? = some (some (x / y - 1))) := by
  constructor
  · intro h1 h2
    rw [index2yoy, List.getElem?_zipWith, List.getElem?_eq_getElem h2,
      shiftSeries_getElem_lt h1 h2]
    rcases s[t] with _ | v <;> rfl
  · intro h1 x y hx hy
    have h2 : t < s.length := by
      by_contra hc
      rw [List.getElem?_eq_none (by omega)] at hx
      cases hx
    rw [index2yoy, List.getElem?_zipWith, hx, shiftSeries_getElem_ge h1 h2, hy]

/-- C9 witness: on a 13-long series with value 2 at position 0 and value 3
at position 12, position 0 of the result is missing and position 12 equals
`3/2 - 1`. -/
theorem index2yoy_values_witness :
    (index2yoy (some 2 :: (List.replicate 11 none ++ [some (3 : ℚ)])))[0]? =
        some none ∧
    (index2yoy (some 2 :: (List.replicate 11 none ++ [some (3 : ℚ)])))[12]? =
        some (some ((3 : ℚ) / 2 - 1)) :=
  ⟨(index2yoy_values _ 0).1 (by decide) (by simp),
   (index2yoy_values _ 12).2 (by decide) 3 2 (by rfl) (by rfl)⟩

/-- C8 (counterexample): on the series whose single value is `-1` the
rebasing divisor `1 + (-1)` is zero, so the first entry of `mom2index` is
`0/0`, not `1`: the claimed unconditional rebasing to `1.0` at the first
non-missing observation fails. -/
theorem mom2index_first_entry_cex :
    mom2index_series [some (-1 : ℚ)] = some [0] ∧ (0 : ℚ) ≠ 1 := by
  constructor
  · simp [mom2index_series, cumprod]
  · norm_num

/-- C8 (amended): on any series with at least one non-missing value,
`mom2index` succeeds, and (i) whenever the first non-missing value `v` has
`v + 1 ≠ 0` the first result entry is exactly `1`; (ii) whenever every
non-missing input `x` has `x + 1 > 0` the first entry is `1` and every
result value is positive; and (iii) on a table the columns are transformed
independently, each by the series transform on its own column. -/
theorem mom2index_props :
    (∀ (s : List (Option ℚ)) (v : ℚ) (vs : List ℚ),
      s.filterMap id = v :: vs → v + 1 ≠ 0 →
      ∃ l, mom2index_series s = some l ∧ l.head? = some 1) ∧
    (∀ (s : List (Option ℚ)) (v : ℚ) (vs : List ℚ),
      s.filterMap id = v :: vs → (∀ x ∈ s.filterMap id, 0 < x + 1) →
      ∃ l, mom2index_series s = some l ∧ l.head? = some 1 ∧ ∀ y ∈ l, 0 < y) ∧
    (∀ data : List (String × List (Option ℚ)),
      mom2index_df data =
        data.mapM (fun c => (mom2index_series c.2).map (fun col => (c.1, col)))) := by
  have hsome : ∀ (s : List (Option ℚ)) (v : ℚ) (vs : List ℚ),
      s.filterMap id = v :: vs →
      mom2index_series s =
        some (((v + 1) :: cumprod (v + 1) (vs.map (· + 1))).map (· / (v + 1))) := by
    intro s v vs hfm
    rw [mom2index_series, hfm]
    simp [cumprod]
  refine ⟨?_, ?_, ?_⟩
  · intro s v vs hfm hv
    refine ⟨_, hsome s v vs hfm, ?_⟩
    simp [div_self hv]
  · intro s v vs hfm hpos
    have hv1 : 0 < v + 1 := hpos v (by simp [hfm])
    refine ⟨_, hsome s v vs hfm, by simp [div_self (ne_of_gt hv1)], ?_⟩
    intro y hy
    rcases List.mem_map.mp hy with ⟨z, hz, rfl⟩
    have hz' : 0 < z := by
      have : (v + 1) :: cumprod (v + 1) (vs.map (· + 1)) =
          cumprod 1 ((v :: vs).map (· + 1)) := by
        simp [cumprod]
      rw [this] at hz
      refine cumprod_pos one_pos ?_ z hz
      intro x hx
      rcases List.mem_map.mp hx with ⟨w, hw, rfl⟩
      exact hpos w (by simp [hfm, hw])
    exact div_pos hz' hv1
  · intro data
    have hnone : ∀ (l : List (String × List (Option ℚ))),
        l.foldl (fun acc c =>
          match acc, mom2index_series c.2 with
          | some cols, some col => some (cols ++ [(c.1, col)])
          | _, _ => none) none = none := by
      intro l
      induction l with
      | nil => rfl
      | cons c cs ih => simpa using ih
    have step : ∀ (l : List (String × List (Option ℚ)))
        (acc : List (String × List ℚ)),
        l.foldl (fun acc c =>
          match acc, mom2index_series c.2 with
          | some cols, some col => some (cols ++ [(c.1, col)])
          | _, _ => none) (some acc) =
        (l.mapM (fun c => (mom2index_series c.2).map
          (fun col => (c.1, col)))).map (fun r => acc ++ r) := by
      intro l
      induction l with
      | nil =>
        intro acc
        rw [List.mapM_nil]
        simp
      | cons c cs ih =>
        intro acc
        rw [List.mapM_cons]
        cases hg : mom2index_series c.2 with
        | none =>
          simp only [List.foldl_cons, hg]
          simp [hnone]
        | some col =>
          simp only [List.foldl_cons, hg, ih]
          cases hm : cs.mapM (fun c => (mom2index_series c.2).map
            (fun col => (c.1, col))) <;> simp [hm]
    have := step data []
    simpa [mom2index_df] using this

/-- C8 witness: the first-entry law applied to the one-value series
`[0.1]`, once under the nonzero-divisor proviso and once under
positivity, and the column-independence law applied to a one-column
table. -/
theorem mom2index_props_witness :
    (∃ l, mom2index_series [some (1/10 : ℚ)] = some l ∧ l.head? = some 1) ∧
    (∃ l, mom2index_series [some (1/10 : ℚ)] = some l ∧ l.head? = some 1 ∧
      ∀ y ∈ l, 0 < y) ∧
    mom2index_df [("a", [some (1/10 : ℚ)])] =
      [("a", [some (1/10 : ℚ)])].mapM
        (fun c => (mom2index_series c.2).map (fun col => (c.1, col))) :=
  ⟨mom2index_props.1 [some (1/10 : ℚ)] (1/10) [] (by rfl) (by norm_num),
   mom2index_props.2.1 [some (1/10 : ℚ)] (1/10) [] (by rfl)
     (by intro x hx; simp at hx; subst hx; norm_num),
   mom2index_props.2.2 [("a", [some (1/10 : ℚ)])]⟩
